import Mathlib

/-!
Verification of the rustifact_derive crate (src/lib.rs), a procedural
derive macro generating ToTokenStream implementations for structs and
enums. The macro is a pure syntax-tree-to-syntax-tree transformation:
we embed its input (a parsed DeriveInput) and its output (a token
stream) and translate the three functions of the source, with the
quote templates rendered as explicit token sequences, the for loops as
folds, and the two panic sites as Except.error.
-/

namespace RustifactDerive

/-- Delimiters of token groups in the proc_macro2 token model. -/
inductive Delim
  | paren
  | brace
  | bracket

/-- A proc_macro2 token tree: an identifier, a punctuation token, an
integer literal (used for tuple-field indices), or a delimited group of
further tokens. -/
inductive TokenTree
  | ident (s : String)
  | punct (s : String)
  | lit (n : Nat)
  | group (d : Delim) (ts : List TokenTree)

/-- A token stream is a sequence of token trees. -/
abbrev TokenStream := List TokenTree

/-- The field list of a struct declaration or of an enum variant, as in
syn::Fields: named fields (we keep the field identifiers in declaration
order), unnamed positional fields (only the count matters to the macro),
or no field list at all (a unit struct or unit variant). -/
inductive Fields
  | named (idents : List String)
  | unnamed (len : Nat)
  | unit

/-- Whether the field list is the named form, the shape the enum
generator rejects. -/
def Fields.isNamed : Fields → Bool
  | .named _ => true
  | .unnamed _ => false
  | .unit => false

/-- An enum variant: its identifier and its field list. -/
structure Variant where
  ident : String
  fields : Fields

/-- The data of a DeriveInput: a struct body, an enum variant list, or a
union (syn::Data). -/
inductive Data
  | struct (fields : Fields)
  | enum (variants : List Variant)
  | union

/-- An outer attribute on the input type: its path and, when the
attribute carries a delimited argument list, the tokens of that list.
attr.parse_args fails when there is no argument list. -/
structure Attribute where
  path : String
  args : Option TokenStream

/-- The generics of the input type, kept as the token sequences that
quote interpolation splices: the printed generic parameter list (empty
when the type has none) and the printed where-clause (empty when
absent). -/
structure Generics where
  tokens : TokenStream
  whereClause : TokenStream

/-- A parsed derive input (syn::DeriveInput): the type identifier, its
outer attributes, its generics and its data. -/
structure DeriveInput where
  ident : String
  attrs : List Attribute
  generics : Generics
  data : Data

/-! ### Token sequences of the quote templates in src/lib.rs -/

/-- Tokens of the macro path `rustifact::internal::quote !` that opens
every reconstruction template emitted by the generators. -/
def quoteMac : TokenStream :=
  [.ident "rustifact", .punct "::", .ident "internal", .punct "::",
   .ident "quote", .punct "!"]

/-- Tokens of `let <f> = self.<f>.to_tok_stream();`, the per-field
initialiser emitted for a named field `f` (line 24 of src/lib.rs). -/
def letSelfFieldInit (f : String) : TokenStream :=
  [.ident "let", .ident f, .punct "=", .ident "self", .punct ".",
   .ident f, .punct ".", .ident "to_tok_stream", .group .paren [],
   .punct ";"]

/-- Tokens of `<f>: #<f>,`, the record-literal entry emitted for a named
field `f` (line 25 of src/lib.rs). -/
def namedFieldEntry (f : String) : TokenStream :=
  [.ident f, .punct ":", .punct "#", .ident f, .punct ","]

/-- The identifier `ident<i>` manufactured for positional field `i`
(lines 42 and 70 of src/lib.rs). -/
def identN (i : Nat) : String := "ident" ++ toString i

/-- The identifier `ident<i>_toks` manufactured for positional payload
`i` of an enum variant (line 71 of src/lib.rs). -/
def identToksN (i : Nat) : String := "ident" ++ toString i ++ "_toks"

/-- Tokens of `let ident<i> = self.<i>.to_tok_stream();`, the per-field
initialiser emitted for positional field `i` of a tuple struct (line 43
of src/lib.rs). -/
def letSelfIndexInit (i : Nat) : TokenStream :=
  [.ident "let", .ident (identN i), .punct "=", .ident "self",
   .punct ".", .lit i, .punct ".", .ident "to_tok_stream",
   .group .paren [], .punct ";"]

/-- Tokens of `#ident<i>,`, the tuple-literal entry emitted for
positional field `i` of a tuple struct (line 44 of src/lib.rs). -/
def unnamedFieldEntry (i : Nat) : TokenStream :=
  [.punct "#", .ident (identN i), .punct ","]

/-- Tokens of `toks.extend(element);`, the statement appending the
instantiated template to the output stream. -/
def extendElement : TokenStream :=
  [.ident "toks", .punct ".", .ident "extend",
   .group .paren [.ident "element"], .punct ";"]

/-- Tokens of `let element = rustifact::internal::quote! { <inner> };`. -/
def letElementQuote (inner : TokenStream) : TokenStream :=
  [.ident "let", .ident "element", .punct "="] ++ quoteMac ++
  [.group .brace inner, .punct ";"]

/-! ### The three functions of src/lib.rs -/

/-- Translation of get_struct_body (src/lib.rs lines 17-58). The two
for loops that extend init_toks and fields in lockstep are rendered as
folds over the field list (respectively over the index range) with a
pair accumulator; a unit struct yields the bare token `()`. -/
def get_struct_body (out_type : String) (fields : Fields) : TokenStream :=
  match fields with
  | .named named =>
      let acc := named.foldl
        (fun (acc : TokenStream × TokenStream) f =>
          (acc.1 ++ letSelfFieldInit f, acc.2 ++ namedFieldEntry f))
        ([], [])
      acc.1 ++ letElementQuote [.ident out_type, .group .brace acc.2] ++
        extendElement
  | .unnamed len =>
      let acc := (List.range len).foldl
        (fun (acc : TokenStream × TokenStream) i =>
          (acc.1 ++ letSelfIndexInit i, acc.2 ++ unnamedFieldEntry i))
        ([], [])
      acc.1 ++ letElementQuote [.ident out_type, .group .paren acc.2] ++
        extendElement
  | .unit => [.group .paren []]

/-- Tokens of the arm `<out>::<v> => rustifact::internal::quote! { <out>::<v> },`
emitted for a unit variant and for a zero-field tuple variant (lines
77-79 and 93 of src/lib.rs). -/
def unitArm (out_type v : String) : TokenStream :=
  [.ident out_type, .punct "::", .ident v, .punct "=>"] ++ quoteMac ++
  [.group .brace [.ident out_type, .punct "::", .ident v], .punct ","]

/-- Tokens of `let ident<i>_toks = ident<i>.to_tok_stream();`, the
per-payload initialiser of a tuple-variant arm (line 72 of src/lib.rs). -/
def enumInitTok (i : Nat) : TokenStream :=
  [.ident "let", .ident (identToksN i), .punct "=", .ident (identN i),
   .punct ".", .ident "to_tok_stream", .group .paren [], .punct ";"]

/-- Tokens of `ident<i>,`, the pattern binder of payload `i` in a
tuple-variant arm (line 73 of src/lib.rs). -/
def enumPatEntry (i : Nat) : TokenStream :=
  [.ident (identN i), .punct ","]

/-- Tokens of `#ident<i>_toks,`, the spliced entry for payload `i` in
the reconstruction template of a tuple-variant arm (line 74 of
src/lib.rs). -/
def enumOutEntry (i : Nat) : TokenStream :=
  [.punct "#", .ident (identToksN i), .punct ","]

/-- Translation of the per-variant match of get_enum_body (src/lib.rs
lines 62-95): a tuple variant folds its index range into the three
accumulators init_toks, fields, fields_out and then emits either the
parenthesis-free arm (when fields is empty) or the binding arm; a
named-field variant panics; a unit variant emits the parenthesis-free
arm. -/
def get_enum_variant_arm (out_type : String) (v : Variant) :
    Except String TokenStream :=
  match v.fields with
  | .unnamed len =>
      let acc := (List.range len).foldl
        (fun (a : TokenStream × TokenStream × TokenStream) i =>
          (a.1 ++ enumInitTok i, a.2.1 ++ enumPatEntry i,
           a.2.2 ++ enumOutEntry i))
        ([], [], [])
      if acc.2.1.isEmpty then
        .ok (unitArm out_type v.ident)
      else
        .ok ([.ident out_type, .punct "::", .ident v.ident,
              .group .paren acc.2.1, .punct "=>",
              .group .brace (acc.1 ++ quoteMac ++
                [.group .brace
                  [.ident out_type, .punct "::", .ident v.ident,
                   .group .paren acc.2.2]]),
              .punct ","])
  | .named _ => .error "Named fields are not yet supported"
  | .unit => .ok (unitArm out_type v.ident)

/-- Tokens of `let element = match self { <arms> };` followed by
`toks.extend(element);`, the wrapper of the enum body (src/lib.rs lines
98-103). -/
def enumMatchWrap (arms : TokenStream) : TokenStream :=
  [.ident "let", .ident "element", .punct "=", .ident "match",
   .ident "self", .group .brace arms, .punct ";"] ++ extendElement

/-- The loop of get_enum_body (src/lib.rs lines 62-97), rendered as an
accumulator recursion: each variant arm is appended to arms, and the
panic on a named-field variant aborts the loop. -/
def enumArmsLoop (out_type : String) :
    List Variant → TokenStream → Except String TokenStream
  | [], arms => .ok arms
  | v :: vs, arms =>
      match get_enum_variant_arm out_type v with
      | .error e => .error e
      | .ok toks => enumArmsLoop out_type vs (arms ++ toks)

/-- Translation of get_enum_body (src/lib.rs lines 60-104): the loop
extending arms with each variant arm, then the match wrapper. -/
def get_enum_body (out_type : String) (variants : List Variant) :
    Except String TokenStream :=
  match enumArmsLoop out_type variants [] with
  | .error e => .error e
  | .ok arms => .ok (enumMatchWrap arms)

/-- Translation of attr.parse_args::<Ident>(): it succeeds exactly when
the attribute has an argument list consisting of a single identifier
token. -/
def parseArgsIdent : Option TokenStream → Option String
  | some [TokenTree.ident s] => some s
  | _ => none

/-- Translation of the attribute loop of derive_token_stream (src/lib.rs
lines 145-153): out_type starts as the input identifier and is replaced
by the argument of each OutType attribute whose argument parses as an
identifier, in attribute order. -/
def resolveOutType (in_type : String) (attrs : List Attribute) : String :=
  attrs.foldl
    (fun out a =>
      if a.path = "OutType" then
        match parseArgsIdent a.args with
        | some id => id
        | none => out
      else out)
    in_type

/-- Tokens of the implementation wrapper (src/lib.rs lines 163-170):
`impl <generics> rustifact::ToTokenStream for <in_type> <generics>
<where> { fn to_toks(&self, toks: &mut rustifact::internal::TokenStream)
{ <body> } }`. -/
def implWrap (generics : Generics) (in_type : String)
    (body : TokenStream) : TokenStream :=
  [.ident "impl"] ++ generics.tokens ++
  [.ident "rustifact", .punct "::", .ident "ToTokenStream",
   .ident "for", .ident in_type] ++
  generics.tokens ++ generics.whereClause ++
  [.group .brace
    [.ident "fn", .ident "to_toks",
     .group .paren
       [.punct "&", .ident "self", .punct ",", .ident "toks",
        .punct ":", .punct "&", .ident "mut", .ident "rustifact",
        .punct "::", .ident "internal", .punct "::",
        .ident "TokenStream"],
     .group .brace body]]

/-- The body dispatch of derive_token_stream (src/lib.rs lines 154-160):
struct data goes to the struct generator, enum data to the enum
generator, and a union panics. -/
def typeBody (out_type : String) : Data → Except String TokenStream
  | .struct d => .ok (get_struct_body out_type d)
  | .enum vs => get_enum_body out_type vs
  | .union => .error "Unions are not yet supported"

/-- Translation of derive_token_stream (src/lib.rs lines 142-171):
resolve the output type from the OutType attributes, generate the body
for the data shape, and wrap it in the ToTokenStream implementation for
the input type. A panic anywhere aborts the whole expansion, hence the
Except.map. -/
def derive_token_stream (ast : DeriveInput) : Except String TokenStream :=
  let in_type := ast.ident
  let out_type := resolveOutType in_type ast.attrs
  (typeBody out_type ast.data).map (implWrap ast.generics in_type)

/-! ### Occurrence of an identifier token in a stream -/

mutual

/-- Whether the identifier `s` occurs anywhere in a token tree,
descending into groups. -/
def occursIdent (s : String) : TokenTree → Bool
  | .ident t => t == s
  | .punct _ => false
  | .lit _ => false
  | .group _ ts => occursIdentList s ts

/-- Whether the identifier `s` occurs anywhere in a list of token
trees. -/
def occursIdentList (s : String) : List TokenTree → Bool
  | [] => false
  | t :: ts => occursIdent s t || occursIdentList s ts

end

/-- Whether the identifier `s` occurs anywhere in a token stream. -/
def streamHasIdent (s : String) (ts : TokenStream) : Bool :=
  occursIdentList s ts

/-- A body emits a reconstruction template for the type name `out` when
it invokes the quote macro, extends the output stream, and mentions the
name `out`. -/
def bodyEmitsTemplate (out : String) (ts : TokenStream) : Bool :=
  streamHasIdent "quote" ts && streamHasIdent "extend" ts &&
    streamHasIdent out ts

/-- Whether some variant of the list has named fields, the condition
under which the enum generator panics. -/
def hasNamedVariant (vs : List Variant) : Bool :=
  vs.any fun v => v.fields.isNamed

/-- The identifier arguments of the OutType attributes of an attribute
list, in attribute order. -/
def outTypeOverrides (attrs : List Attribute) : List String :=
  attrs.filterMap fun a =>
    if a.path = "OutType" then parseArgsIdent a.args else none

/-! ### Fold characterisation lemmas -/

lemma occursIdentList_append (s : String) (l1 l2 : List TokenTree) :
    occursIdentList s (l1 ++ l2) =
      (occursIdentList s l1 || occursIdentList s l2) := by
  induction l1 with
  | nil => simp [occursIdentList]
  | cons t ts ih => simp [occursIdentList, ih, Bool.or_assoc]

lemma foldl_pair_extend {α β : Type} (f g : α → List β) (l : List α) :
    ∀ p q : List β,
      l.foldl (fun acc x => (acc.1 ++ f x, acc.2 ++ g x)) (p, q)
        = (p ++ (l.map f).flatten, q ++ (l.map g).flatten) := by
  induction l with
  | nil => intro p q; simp
  | cons x l ih => intro p q; simp [ih, List.append_assoc]

lemma foldl_triple_extend {α β : Type} (f g h : α → List β) (l : List α) :
    ∀ p q r : List β,
      l.foldl (fun acc x =>
          (acc.1 ++ f x, acc.2.1 ++ g x, acc.2.2 ++ h x)) (p, q, r)
        = (p ++ (l.map f).flatten, q ++ (l.map g).flatten,
           r ++ (l.map h).flatten) := by
  induction l with
  | nil => intro p q r; simp
  | cons x l ih => intro p q r; simp [ih, List.append_assoc]

/-! ### Characterisation of the struct bodies -/

/-- The body emitted for a struct with named fields, written directly
as one initialiser per field in declaration order followed by the
record-literal template with one entry per field. -/
def structNamedBodySpec (out_type : String) (ns : List String) :
    TokenStream :=
  (ns.map letSelfFieldInit).flatten ++
  letElementQuote
    [.ident out_type, .group .brace (ns.map namedFieldEntry).flatten] ++
  extendElement

/-- The body emitted for a tuple struct with `n` positional fields,
written directly as one initialiser per index followed by the
tuple-literal template with one entry per index. -/
def structUnnamedBodySpec (out_type : String) (n : Nat) : TokenStream :=
  ((List.range n).map letSelfIndexInit).flatten ++
  letElementQuote
    [.ident out_type,
     .group .paren ((List.range n).map unnamedFieldEntry).flatten] ++
  extendElement

lemma get_struct_body_named (out_type : String) (ns : List String) :
    get_struct_body out_type (.named ns) =
      structNamedBodySpec out_type ns := by
  simp [get_struct_body, structNamedBodySpec, foldl_pair_extend]

lemma get_struct_body_unnamed (out_type : String) (n : Nat) :
    get_struct_body out_type (.unnamed n) =
      structUnnamedBodySpec out_type n := by
  simp [get_struct_body, structUnnamedBodySpec, foldl_pair_extend]

/-! ### Characterisation of the enum arms -/

/-- The arm emitted for a tuple variant with `n` positional payloads,
written directly: the bound pattern, the per-payload conversions, and
the variant-literal template with one spliced entry per payload. -/
def tupleArmSpec (out_type v : String) (n : Nat) : TokenStream :=
  [.ident out_type, .punct "::", .ident v,
   .group .paren ((List.range n).map enumPatEntry).flatten, .punct "=>",
   .group .brace (((List.range n).map enumInitTok).flatten ++ quoteMac ++
     [.group .brace
       [.ident out_type, .punct "::", .ident v,
        .group .paren ((List.range n).map enumOutEntry).flatten]]),
   .punct ","]

/-- The arm emitted for one variant: parenthesis-free for a unit
variant and for a zero-field tuple variant, the binding arm otherwise.
The named case is never reached on a supported enum. -/
def enumArmSpec (out_type : String) (v : Variant) : TokenStream :=
  match v.fields with
  | .unnamed 0 => unitArm out_type v.ident
  | .unnamed n => tupleArmSpec out_type v.ident n
  | .named _ => []
  | .unit => unitArm out_type v.ident

lemma patEntries_ne_nil (m : Nat) :
    ((List.range (m + 1)).map enumPatEntry).flatten ≠ [] := by
  rw [List.range_succ]
  simp [enumPatEntry]

lemma get_enum_variant_arm_ok (out_type : String) (v : Variant)
    (h : v.fields.isNamed = false) :
    get_enum_variant_arm out_type v = .ok (enumArmSpec out_type v) := by
  rcases v with ⟨vid, fs⟩
  cases fs with
  | named ns => simp [Fields.isNamed] at h
  | unit => rfl
  | unnamed n =>
      cases n with
      | zero => rfl
      | succ m =>
          have hne : ¬ ((List.range (m + 1)).map enumPatEntry).flatten.isEmpty = true := by
            rw [List.isEmpty_iff]
            exact patEntries_ne_nil m
          simp [get_enum_variant_arm, foldl_triple_extend, enumArmSpec,
            tupleArmSpec, hne]

lemma get_enum_variant_arm_named (out_type : String) (v : Variant)
    (h : v.fields.isNamed = true) :
    get_enum_variant_arm out_type v =
      .error "Named fields are not yet supported" := by
  rcases v with ⟨vid, fs⟩
  cases fs with
  | named ns => rfl
  | unit => simp [Fields.isNamed] at h
  | unnamed n => simp [Fields.isNamed] at h

lemma enumArmsLoop_ok (out_type : String) (vs : List Variant)
    (h : ∀ v ∈ vs, v.fields.isNamed = false) :
    ∀ init : TokenStream,
      enumArmsLoop out_type vs init
        = .ok (init ++ (vs.map (enumArmSpec out_type)).flatten) := by
  induction vs with
  | nil => intro init; simp [enumArmsLoop]
  | cons v vs ih =>
      intro init
      have hv : v.fields.isNamed = false := h v (List.mem_cons_self v vs)
      have hrest : ∀ w ∈ vs, w.fields.isNamed = false :=
        fun w hw => h w (List.mem_cons_of_mem v hw)
      simp [enumArmsLoop, get_enum_variant_arm_ok out_type v hv, ih hrest,
        List.append_assoc]

lemma enumArmsLoop_err (out_type : String) (vs : List Variant)
    (h : hasNamedVariant vs = true) :
    ∀ init : TokenStream,
      enumArmsLoop out_type vs init
        = .error "Named fields are not yet supported" := by
  induction vs with
  | nil => simp [hasNamedVariant] at h
  | cons v vs ih =>
      intro init
      by_cases hv : v.fields.isNamed = true
      · simp [enumArmsLoop, get_enum_variant_arm_named out_type v hv]
      · have hv' : v.fields.isNamed = false := by
          cases hb : v.fields.isNamed with
          | true => exact absurd hb hv
          | false => rfl
        have hrest : hasNamedVariant vs = true := by
          simpa [hasNamedVariant, hv'] using h
        simp [enumArmsLoop, get_enum_variant_arm_ok out_type v hv', ih hrest]

lemma get_enum_body_ok (out_type : String) (vs : List Variant)
    (h : ∀ v ∈ vs, v.fields.isNamed = false) :
    get_enum_body out_type vs =
      .ok (enumMatchWrap ((vs.map (enumArmSpec out_type)).flatten)) := by
  simp [get_enum_body, enumArmsLoop_ok out_type vs h]

lemma get_enum_body_err (out_type : String) (vs : List Variant)
    (h : hasNamedVariant vs = true) :
    get_enum_body out_type vs =
      .error "Named fields are not yet supported" := by
  simp [get_enum_body, enumArmsLoop_err out_type vs h]

lemma hasNamedVariant_false_iff (vs : List Variant) :
    hasNamedVariant vs = false ↔ ∀ v ∈ vs, v.fields.isNamed = false := by
  simp [hasNamedVariant]

lemma get_enum_body_isOk (out_type : String) (vs : List Variant) :
    (get_enum_body out_type vs).isOk = !hasNamedVariant vs := by
  cases hb : hasNamedVariant vs with
  | true => simp [get_enum_body_err out_type vs hb, Except.isOk, Except.toBool]
  | false =>
      have h := (hasNamedVariant_false_iff vs).mp hb
      simp [get_enum_body_ok out_type vs h, Except.isOk, Except.toBool]

lemma except_isOk_map {ε α β : Type} (f : α → β) (x : Except ε α) :
    (x.map f).isOk = x.isOk := by
  cases x <;> rfl

/-! ### Occurrence lemmas for the generated streams -/

lemma streamHasIdent_append (s : String) (l1 l2 : TokenStream) :
    streamHasIdent s (l1 ++ l2) =
      (streamHasIdent s l1 || streamHasIdent s l2) := by
  simp [streamHasIdent, occursIdentList_append]

lemma streamHasIdent_flatten_of_mem (s : String) (x : TokenStream)
    (l : List TokenStream) (hx : x ∈ l) (h : streamHasIdent s x = true) :
    streamHasIdent s l.flatten = true := by
  induction l with
  | nil => cases hx
  | cons y l ih =>
      rcases List.mem_cons.mp hx with rfl | hx'
      · simp [streamHasIdent_append, h]
      · simp [streamHasIdent_append, ih hx']

lemma streamHasIdent_implWrap_of_body (s : String) (g : Generics)
    (in_type : String) (body : TokenStream)
    (h : streamHasIdent s body = true) :
    streamHasIdent s (implWrap g in_type body) = true := by
  have h' : occursIdentList s body = true := h
  simp [implWrap, streamHasIdent, occursIdentList_append, occursIdentList,
    occursIdent, h']

lemma bodyEmitsTemplate_implWrap (out : String) (g : Generics)
    (in_type : String) (body : TokenStream)
    (h : bodyEmitsTemplate out body = true) :
    bodyEmitsTemplate out (implWrap g in_type body) = true := by
  simp only [bodyEmitsTemplate, Bool.and_eq_true] at h ⊢
  exact ⟨⟨streamHasIdent_implWrap_of_body _ g in_type body h.1.1,
          streamHasIdent_implWrap_of_body _ g in_type body h.1.2⟩,
         streamHasIdent_implWrap_of_body _ g in_type body h.2⟩

lemma bodyEmitsTemplate_structNamed (out : String) (ns : List String) :
    bodyEmitsTemplate out (get_struct_body out (.named ns)) = true := by
  rw [get_struct_body_named]
  simp [bodyEmitsTemplate, structNamedBodySpec, letElementQuote, quoteMac,
    extendElement, streamHasIdent, occursIdentList_append, occursIdentList,
    occursIdent]

lemma bodyEmitsTemplate_structUnnamed (out : String) (n : Nat) :
    bodyEmitsTemplate out (get_struct_body out (.unnamed n)) = true := by
  rw [get_struct_body_unnamed]
  simp [bodyEmitsTemplate, structUnnamedBodySpec, letElementQuote, quoteMac,
    extendElement, streamHasIdent, occursIdentList_append, occursIdentList,
    occursIdent]

lemma streamHasIdent_unitArm_left (out v : String) :
    streamHasIdent v (unitArm out v) = true := by
  simp [unitArm, streamHasIdent, occursIdentList_append, occursIdentList,
    occursIdent]

lemma armSpec_mentions (out : String) (v : Variant)
    (h : v.fields.isNamed = false) :
    streamHasIdent v.ident (enumArmSpec out v) = true ∧
    streamHasIdent out (enumArmSpec out v) = true ∧
    streamHasIdent "quote" (enumArmSpec out v) = true := by
  rcases v with ⟨vid, fs⟩
  cases fs with
  | named ns => simp [Fields.isNamed] at h
  | unit =>
      refine ⟨?_, ?_, ?_⟩ <;>
        simp [enumArmSpec, unitArm, quoteMac, streamHasIdent,
          occursIdentList_append, occursIdentList, occursIdent]
  | unnamed n =>
      cases n with
      | zero =>
          refine ⟨?_, ?_, ?_⟩ <;>
            simp [enumArmSpec, unitArm, quoteMac, streamHasIdent,
              occursIdentList_append, occursIdentList, occursIdent]
      | succ m =>
          refine ⟨?_, ?_, ?_⟩ <;>
            simp [enumArmSpec, tupleArmSpec, quoteMac, streamHasIdent,
              occursIdentList_append, occursIdentList, occursIdent]

lemma streamHasIdent_extend_enumMatchWrap (arms : TokenStream) :
    streamHasIdent "extend" (enumMatchWrap arms) = true := by
  simp [enumMatchWrap, extendElement, streamHasIdent,
    occursIdentList_append, occursIdentList, occursIdent]

lemma streamHasIdent_enumMatchWrap_of_arms (s : String) (arms : TokenStream)
    (h : streamHasIdent s arms = true) :
    streamHasIdent s (enumMatchWrap arms) = true := by
  have h' : occursIdentList s arms = true := h
  simp [enumMatchWrap, extendElement, streamHasIdent,
    occursIdentList_append, occursIdentList, occursIdent, h']

/-! ### Resolution of the OutType override -/

lemma resolveOutType_cons (in_type : String) (a : Attribute)
    (attrs : List Attribute) :
    resolveOutType in_type (a :: attrs) =
      resolveOutType
        (if a.path = "OutType" then
          match parseArgsIdent a.args with
          | some id => id
          | none => in_type
        else in_type)
        attrs := by
  simp only [resolveOutType, List.foldl_cons]

lemma resolveOutType_append (in_type : String)
    (l1 l2 : List Attribute) :
    resolveOutType in_type (l1 ++ l2) =
      resolveOutType (resolveOutType in_type l1) l2 := by
  simp [resolveOutType, List.foldl_append]

lemma getLast?_cons_getD {α : Type} :
    ∀ (l : List α) (x d : α),
      ((x :: l).getLast?).getD d = (l.getLast?).getD x
  | [], _, _ => rfl
  | y :: l, x, d => by
      rw [List.getLast?_cons_cons]
      exact (getLast?_cons_getD l y d).trans
        (getLast?_cons_getD l y x).symm

lemma resolveOutType_eq_lastOverride (in_type : String)
    (attrs : List Attribute) :
    resolveOutType in_type attrs =
      ((outTypeOverrides attrs).getLast?).getD in_type := by
  induction attrs generalizing in_type with
  | nil => rfl
  | cons a attrs ih =>
      rw [resolveOutType_cons]
      by_cases hp : a.path = "OutType"
      · cases hargs : parseArgsIdent a.args with
        | none => simp [outTypeOverrides, hp, hargs, ih]
        | some id =>
            simp only [hp, if_true, hargs]
            rw [ih]
            have : outTypeOverrides (a :: attrs) =
                id :: outTypeOverrides attrs := by
              simp [outTypeOverrides, hp, hargs]
            rw [this, getLast?_cons_getD]
      · simp only [hp, if_false]
        rw [ih]
        have : outTypeOverrides (a :: attrs) = outTypeOverrides attrs := by
          simp [outTypeOverrides, hp]
        rw [this]

/-! ### Claim theorems -/

/-- Whether a data shape is supported by the macro: any struct, and any
enum none of whose variants has named fields. -/
def supportedData : Data → Bool
  | .struct _ => true
  | .enum vs => !hasNamedVariant vs
  | .union => false

/-- C1 (amended): for every struct with named or positional fields and
for every supported enum, the macro succeeds and its output contains a
reconstruction template: it invokes the quote macro, extends the output
stream, and names the (possibly overridden) output type, and for an
enum it also names every declared variant. Unit structs are excluded:
their generated body emits nothing (see the counterexample). -/
theorem quoting_emits_literal_template (id : String)
    (attrs : List Attribute) (gens : Generics) :
    (∀ ns, ∃ ts,
      derive_token_stream ⟨id, attrs, gens, .struct (.named ns)⟩ = .ok ts
      ∧ bodyEmitsTemplate (resolveOutType id attrs) ts = true)
    ∧ (∀ n, ∃ ts,
      derive_token_stream ⟨id, attrs, gens, .struct (.unnamed n)⟩ = .ok ts
      ∧ bodyEmitsTemplate (resolveOutType id attrs) ts = true)
    ∧ (∀ vs, (∀ v ∈ vs, v.fields.isNamed = false) →
      ∃ ts,
        derive_token_stream ⟨id, attrs, gens, .enum vs⟩ = .ok ts
        ∧ ∀ v ∈ vs, streamHasIdent v.ident ts = true
            ∧ bodyEmitsTemplate (resolveOutType id attrs) ts = true) := by
  refine ⟨fun ns => ?_, fun n => ?_, fun vs h => ?_⟩
  · exact ⟨_, rfl, bodyEmitsTemplate_implWrap _ gens id _
      (bodyEmitsTemplate_structNamed _ ns)⟩
  · exact ⟨_, rfl, bodyEmitsTemplate_implWrap _ gens id _
      (bodyEmitsTemplate_structUnnamed _ n)⟩
  · refine ⟨implWrap gens id
      (enumMatchWrap ((vs.map (enumArmSpec (resolveOutType id attrs))).flatten)),
      ?_, fun v hv => ?_⟩
    · show (typeBody (resolveOutType id attrs) (.enum vs)).map
        (implWrap gens id) = _
      rw [show typeBody (resolveOutType id attrs) (.enum vs) =
        get_enum_body (resolveOutType id attrs) vs from rfl]
      rw [get_enum_body_ok _ vs h]
      rfl
    · have hmem : enumArmSpec (resolveOutType id attrs) v ∈
          vs.map (enumArmSpec (resolveOutType id attrs)) :=
        List.mem_map_of_mem _ hv
      have harm := armSpec_mentions (resolveOutType id attrs) v (h v hv)
      refine ⟨?_, ?_⟩
      · exact streamHasIdent_implWrap_of_body _ gens id _
          (streamHasIdent_enumMatchWrap_of_arms _ _
            (streamHasIdent_flatten_of_mem _ _ _ hmem harm.1))
      · simp only [bodyEmitsTemplate, Bool.and_eq_true]
        refine ⟨⟨?_, ?_⟩, ?_⟩
        · exact streamHasIdent_implWrap_of_body _ gens id _
            (streamHasIdent_enumMatchWrap_of_arms _ _
              (streamHasIdent_flatten_of_mem _ _ _ hmem harm.2.2))
        · exact streamHasIdent_implWrap_of_body _ gens id _
            (streamHasIdent_extend_enumMatchWrap _)
        · exact streamHasIdent_implWrap_of_body _ gens id _
            (streamHasIdent_enumMatchWrap_of_arms _ _
              (streamHasIdent_flatten_of_mem _ _ _ hmem harm.2.1))

/-- C1 witness: the amended claim applied to a concrete one-variant
enum. -/
theorem quoting_emits_literal_template_witness :
    ∃ ts,
      derive_token_stream
        ⟨"T", [], ⟨[], []⟩, .enum [⟨"A", Fields.unit⟩]⟩ = .ok ts
      ∧ ∀ v ∈ [(⟨"A", Fields.unit⟩ : Variant)],
          streamHasIdent v.ident ts = true
          ∧ bodyEmitsTemplate (resolveOutType "T" []) ts = true :=
  (quoting_emits_literal_template "T" [] ⟨[], []⟩).2.2
    [⟨"A", Fields.unit⟩] (by decide)

/-- C1 counterexample: a unit struct is a supported input, yet the
emitted implementation contains no reconstruction template at all (no
quote invocation), so the generated conversion does not produce a
matching literal of the type, refuting the claim as stated. -/
theorem quoting_roundtrip_counterexample :
    supportedData (Data.struct Fields.unit) = true
    ∧ derive_token_stream ⟨"MyUnit", [], ⟨[], []⟩, .struct .unit⟩ =
        .ok (implWrap ⟨[], []⟩ "MyUnit" [.group .paren []])
    ∧ bodyEmitsTemplate (resolveOutType "MyUnit" [])
        (implWrap ⟨[], []⟩ "MyUnit" [.group .paren []]) = false :=
  ⟨rfl, rfl, rfl⟩

/-- C2: for a struct with named fields the generated body is, in field
declaration order, one initialiser per field converting it recursively
via self.field.to_tok_stream(), followed by the template for the record
literal of the output type with one entry per declared field, followed
by the statement extending the output stream. -/
theorem struct_named_body_structure (out_type : String) (ns : List String) :
    get_struct_body out_type (.named ns) =
      (ns.map letSelfFieldInit).flatten ++
      letElementQuote
        [.ident out_type,
         .group .brace (ns.map namedFieldEntry).flatten] ++
      extendElement :=
  get_struct_body_named out_type ns

/-- C3: on an enum whose variants are all unit or tuple variants the
generator succeeds, and the body is a match on self whose arms are, in
variant declaration order, exactly one arm per declared variant: the
parenthesis-free reconstruction for a unit (or zero-field tuple)
variant, and for a tuple variant the arm binding each payload,
converting it via its own to_tok_stream call, and splicing it into the
variant-literal template. -/
theorem enum_body_structure (out_type : String) (vs : List Variant)
    (h : ∀ v ∈ vs, v.fields.isNamed = false) :
    get_enum_body out_type vs =
      .ok (enumMatchWrap ((vs.map (enumArmSpec out_type)).flatten)) :=
  get_enum_body_ok out_type vs h

/-- C3 witness: the arm structure evaluated on a concrete enum with a
unit variant and a two-payload tuple variant. -/
theorem enum_body_structure_witness :
    get_enum_body "E" [⟨"A", Fields.unit⟩, ⟨"B", Fields.unnamed 2⟩] =
      .ok (enumMatchWrap
        (([⟨"A", Fields.unit⟩, ⟨"B", Fields.unnamed 2⟩].map
          (enumArmSpec "E")).flatten)) :=
  enum_body_structure "E" _ (by decide)

/-- C4: the macro rejects an input (aborts with a diagnostic instead of
emitting an implementation) exactly when the input is a union or an
enum containing a named-field variant; every struct and every other
enum is accepted. -/
theorem derive_rejects_exactly (id : String) (attrs : List Attribute)
    (gens : Generics) (d : Data) :
    (derive_token_stream ⟨id, attrs, gens, d⟩).isOk = false ↔
      (d = Data.union ∨
        ∃ vs, d = Data.enum vs ∧ hasNamedVariant vs = true) := by
  cases d with
  | struct fs =>
      simp [derive_token_stream, typeBody, except_isOk_map,
        Except.isOk, Except.toBool, Except.map]
  | enum vs =>
      simp [derive_token_stream, typeBody, except_isOk_map,
        get_enum_body_isOk]
  | union =>
      simp [derive_token_stream, typeBody, except_isOk_map,
        Except.isOk, Except.toBool, Except.map]

/-- C5: the driver dispatches struct data to the struct generator and
enum data to the enum generator with the resolved output type, and
wraps the resulting body in the ToTokenStream implementation for the
original input type, repeating the generic parameter tokens on the impl
and on the type and carrying the where-clause tokens. -/
theorem derive_dispatch_and_wrap (id : String) (attrs : List Attribute)
    (gens : Generics) :
    (∀ fs, derive_token_stream ⟨id, attrs, gens, .struct fs⟩ =
      .ok (implWrap gens id
        (get_struct_body (resolveOutType id attrs) fs)))
    ∧ (∀ vs, derive_token_stream ⟨id, attrs, gens, .enum vs⟩ =
      (get_enum_body (resolveOutType id attrs) vs).map (implWrap gens id))
    ∧ (∀ body, implWrap gens id body =
      [.ident "impl"] ++ gens.tokens ++
      [.ident "rustifact", .punct "::", .ident "ToTokenStream",
       .ident "for", .ident id] ++
      gens.tokens ++ gens.whereClause ++
      [.group .brace
        [.ident "fn", .ident "to_toks",
         .group .paren
           [.punct "&", .ident "self", .punct ",", .ident "toks",
            .punct ":", .punct "&", .ident "mut", .ident "rustifact",
            .punct "::", .ident "internal", .punct "::",
            .ident "TokenStream"],
         .group .brace body]]) :=
  ⟨fun _ => rfl, fun _ => rfl, fun _ => rfl⟩

/-- C6: the output type used in the templates is the argument of the
last OutType attribute whose argument parses as an identifier, and the
input type identifier when there is none; the generators receive that
resolved name (and the named-struct template mentions it), while the
implementation wrapper is built for the input type identifier. -/
theorem outType_override_resolution (id : String) (attrs : List Attribute)
    (gens : Generics) (d : Data) :
    resolveOutType id attrs = ((outTypeOverrides attrs).getLast?).getD id
    ∧ (outTypeOverrides attrs = [] → resolveOutType id attrs = id)
    ∧ derive_token_stream ⟨id, attrs, gens, d⟩ =
        (typeBody (resolveOutType id attrs) d).map (implWrap gens id)
    ∧ (∀ ns, streamHasIdent (resolveOutType id attrs)
        (get_struct_body (resolveOutType id attrs) (.named ns)) = true) := by
  refine ⟨resolveOutType_eq_lastOverride id attrs, fun h => ?_, rfl,
    fun ns => ?_⟩
  · rw [resolveOutType_eq_lastOverride, h]; rfl
  · have := bodyEmitsTemplate_structNamed (resolveOutType id attrs) ns
    simp only [bodyEmitsTemplate, Bool.and_eq_true] at this
    exact this.2

/-- C6 witness: with no attribute the resolved output type is the input
identifier. -/
theorem outType_override_resolution_witness :
    resolveOutType "T" [] = "T" :=
  (outType_override_resolution "T" [] ⟨[], []⟩ Data.union).2.1 rfl

/-- C7: the macro is a deterministic function of its parsed input: two
invocations on equal inputs yield equal outputs. In this embedding
derive_token_stream is a pure function with no state or effects. -/
theorem derive_deterministic (a b : DeriveInput) (h : a = b) :
    derive_token_stream a = derive_token_stream b := by rw [h]

/-- C7 witness: determinism applied at a concrete input. -/
theorem derive_deterministic_witness :
    derive_token_stream ⟨"T", [], ⟨[], []⟩, .struct (.named ["x"])⟩ =
      derive_token_stream ⟨"T", [], ⟨[], []⟩, .struct (.named ["x"])⟩ :=
  derive_deterministic _ _ rfl

/-- C8: the body generated for a unit struct is the single bare token
`()`: it contains no extend statement, so the generated conversion
appends nothing to the output stream. -/
theorem unit_struct_body_empty (out_type : String) :
    get_struct_body out_type Fields.unit = [TokenTree.group Delim.paren []]
    ∧ streamHasIdent "extend"
        (get_struct_body out_type Fields.unit) = false :=
  ⟨rfl, rfl⟩

/-- C9: a tuple variant with zero fields produces exactly the
parenthesis-free arm of a unit variant: pattern and reconstruction are
`Out::Variant` with no parentheses. -/
theorem zero_field_tuple_variant_arm (out_type v : String) :
    get_enum_variant_arm out_type ⟨v, Fields.unnamed 0⟩ =
      .ok (unitArm out_type v)
    ∧ get_enum_variant_arm out_type ⟨v, Fields.unnamed 0⟩ =
      get_enum_variant_arm out_type ⟨v, Fields.unit⟩ :=
  ⟨rfl, rfl⟩

/-- C10: an OutType attribute whose argument does not parse as a single
identifier is skipped with no effect and no diagnostic: removing it
leaves the resolved name unchanged, alone it leaves the input name in
effect, expansion still succeeds, and appending a further OutType
attribute with an identifier argument makes that last one take
effect. -/
theorem outType_invalid_ignored (id : String) (pre post : List Attribute)
    (a : Attribute) (gens : Generics) (fs : Fields) (x : String)
    (hp : a.path = "OutType") (hargs : parseArgsIdent a.args = none) :
    resolveOutType id (pre ++ a :: post) = resolveOutType id (pre ++ post)
    ∧ resolveOutType id [a] = id
    ∧ (derive_token_stream
        ⟨id, pre ++ a :: post, gens, .struct fs⟩).isOk = true
    ∧ resolveOutType id
        ((pre ++ a :: post) ++ [⟨"OutType", some [.ident x]⟩]) = x := by
  have hstep : ∀ y : String,
      resolveOutType y (a :: post) = resolveOutType y post := by
    intro y
    rw [resolveOutType_cons]
    simp [hp, hargs]
  refine ⟨?_, ?_, ?_, ?_⟩
  · rw [show pre ++ a :: post = pre ++ (a :: post) from rfl,
      resolveOutType_append, hstep, ← resolveOutType_append]
  · have := hstep id
    simpa [resolveOutType] using
      (by rw [resolveOutType_cons]; simp [hp, hargs] :
        resolveOutType id [a] = resolveOutType id [])
  · simp [derive_token_stream, typeBody, except_isOk_map,
      Except.isOk, Except.toBool, Except.map]
  · rw [resolveOutType_append]
    simp [resolveOutType, parseArgsIdent]

/-- C10 witness: the invalid-override behaviour evaluated on a concrete
attribute list. -/
theorem outType_invalid_ignored_witness :
    resolveOutType "T"
        ([] ++ (⟨"OutType", some [.punct "?"]⟩ : Attribute) :: []) =
      resolveOutType "T" ([] ++ [])
    ∧ resolveOutType "T" [⟨"OutType", some [.punct "?"]⟩] = "T"
    ∧ (derive_token_stream
        ⟨"T", [] ++ (⟨"OutType", some [.punct "?"]⟩ : Attribute) :: [],
         ⟨[], []⟩, .struct (.named [])⟩).isOk = true
    ∧ resolveOutType "T"
        (([] ++ (⟨"OutType", some [.punct "?"]⟩ : Attribute) :: []) ++
          [⟨"OutType", some [.ident "U"]⟩]) = "U" :=
  outType_invalid_ignored "T" [] [] _ ⟨[], []⟩ (.named []) "U" rfl rfl
